import Mathlib

/-!
# Verification of the MTSParser extraction pipeline

A shallow embedding, in Lean 4, of the pure computational core of the
MTSParser repository (Treasury Statement extraction):

* `src/src/lib/pdf/extractor.py` — `_parse_amount`, `_parse_budget_line`,
  `_process_budget_table_data`, `_extract_budget_table` (post-OCR part),
  `_create_mock_budget_data`, `_extract_metadata` (month/year part);
* `src/src/api/main.py` — `parse_filename`, `extract_budget_data`,
  `extract_departments_data` (ratio part), `compare_departments` (ranking),
  `compare_statements` (mock comparison summary);
* `src/extract_budget_comparison.py` — `extract_budget_data`,
  `extract_metadata_from_filename`, `calculate_budget_comparison`;
* `src/src/lib/pdf/api.py` — `_calculate_percentage_change`,
  `compare_statements` (summary-entry construction).

Modelling conventions:

* Python `float` values are modelled exactly: finite values as `ℚ`, plus
  explicit infinity/NaN constructors (`PyFloat`).  Binary floating-point
  rounding is abstracted away (all numerals appearing in the sources are
  exactly representable at the scales involved).
* Python strings are `String`/`List Char`; only ASCII whitespace is
  modelled for `str.strip` / `\s` / `float()` stripping, which covers
  every string the repository manipulates.
* Python regular expressions are compiled by hand into deterministic
  matchers.  For every pattern in the sources the character classes of
  adjacent regex tokens are disjoint (digits/commas/dots vs. whitespace),
  so Python's backtracking engine is equivalent to the greedy scans
  implemented here; the lazy `(.+?)` group is implemented as the
  increasing-length scan that the backtracking engine performs.
* I/O (PDF reading, OCR, the filesystem, logging) is cut at the function
  boundary: functions receive the text/token streams that the external
  collaborators would have produced.
-/

/-! ## Character-level utilities shared by all embedded functions -/

/-- ASCII whitespace, as recognised by Python's `\s`, `str.strip()` and the
stripping performed by `float()`/`int()`. -/
def isPyWS (c : Char) : Bool :=
  c == ' ' || c == '\t' || c == '\n' || c == '\r' || c == '\x0b' || c == '\x0c'

/-- Python `str.strip()` on a character list: drop ASCII whitespace from
both ends. -/
def pyStrip (cs : List Char) : List Char :=
  ((cs.dropWhile isPyWS).reverse.dropWhile isPyWS).reverse

/-- Decimal value of a list of digit characters (most significant first),
the value produced by Python's `int` on a digit string. -/
def digitsToNat (cs : List Char) : Nat :=
  cs.foldl (fun a c => a * 10 + (c.toNat - 48)) 0

/-- Python's substring containment test (`needle in hay`). -/
def isSubstring (needle : List Char) : List Char → Bool
  | [] => needle.isEmpty
  | c :: t => needle.isPrefixOf (c :: t) || isSubstring needle t

/-- A maximal run of digits possibly containing single underscores between
digits, as accepted inside Python numeric literals (`int()`/`float()`);
returns the digits with underscores removed, and the unconsumed suffix. -/
def udigits : List Char → List Char × List Char
  | [] => ([], [])
  | [c] => if c.isDigit then ([c], []) else ([], [c])
  | c :: d :: rest =>
    if c.isDigit then
      if d.isDigit then
        let p := udigits (d :: rest)
        (c :: p.1, p.2)
      else if d == '_' then
        match rest with
        | e :: _ =>
          if e.isDigit then
            let p := udigits rest
            (c :: p.1, p.2)
          else ([c], d :: rest)
        | [] => ([c], [d])
      else ([c], d :: rest)
    else ([], c :: d :: rest)

/-! ## `_parse_amount` (extractor.py lines 355-364) and Python `float()` -/

/-- The value space of Python `float` results, with binary rounding
abstracted away: finite values are exact rationals. -/
inductive PyFloat where
  | finite : ℚ → PyFloat
  | inf : Bool → PyFloat
  | nan : PyFloat
deriving DecidableEq

/-- Negation of a `PyFloat` (the effect of a leading `-` sign). -/
def PyFloat.neg : PyFloat → PyFloat
  | .finite q => .finite (-q)
  | .inf b => .inf (!b)
  | .nan => .nan

/-- Integer power of ten over `ℚ`, used for float exponents. -/
def pow10 : Int → ℚ
  | .ofNat n => (10 : ℚ) ^ n
  | .negSucc n => 1 / (10 : ℚ) ^ (n + 1)

/-- Syntactic shape of a successfully parsed Python float literal: sign,
integer-part digits, fractional-part digits and exponent, or one of the
non-finite spellings.  (Kept separate from the `ℚ` valuation so that the
string-processing part of `float()` stays kernel-reducible.) -/
inductive FloatRep where
  | num (neg : Bool) (ip fp : List Char) (ex : Int)
  | inf (neg : Bool)
  | nan
deriving DecidableEq

/-- Mantissa of a Python float literal: `digits`, `digits.`, `.digits` or
`digits.digits` (underscores allowed inside digit runs); at least one digit
overall.  Returns integer-part and fractional-part digits plus the
unconsumed suffix. -/
def parseMantissa (cs : List Char) : Option ((List Char × List Char) × List Char) :=
  match (udigits cs).2 with
  | '.' :: r2 =>
    if (udigits cs).1 = [] ∧ (udigits r2).1 = [] then none
    else some (((udigits cs).1, (udigits r2).1), (udigits r2).2)
  | _ =>
    if (udigits cs).1 = [] then none
    else some (((udigits cs).1, []), (udigits cs).2)

/-- Exponent suffix of a Python float literal: nothing, or `e`/`E` followed
by an optional sign and a digit run. -/
def parseExp (cs : List Char) : Option (Int × List Char) :=
  match cs with
  | c :: r1 =>
    if c == 'e' || c == 'E' then
      let signed : Int × List Char :=
        match r1 with
        | '+' :: t => (1, t)
        | '-' :: t => (-1, t)
        | _ => (1, r1)
      let q := udigits signed.2
      if q.1 = [] then none else some (signed.1 * (digitsToNat q.1 : Int), q.2)
    else some (0, cs)
  | [] => some (0, [])

/-- Core of Python `float()` after whitespace and sign removal:
case-insensitive `inf`/`infinity`/`nan`, or mantissa followed by an
optional exponent, consuming the entire remaining input. -/
def pyFloatParseCore (neg : Bool) (cs : List Char) : Option FloatRep :=
  if cs.map Char.toLower = "inf".toList ∨ cs.map Char.toLower = "infinity".toList then
    some (.inf neg)
  else if cs.map Char.toLower = "nan".toList then some .nan
  else
    match parseMantissa cs with
    | none => none
    | some (m, r1) =>
      match parseExp r1 with
      | none => none
      | some (e, r2) => if r2 = [] then some (.num neg m.1 m.2 e) else none

/-- Syntactic part of Python `float(s)`: strip ASCII whitespace at both
ends, take one optional sign, then parse the rest; `none` models a raised
`ValueError`. -/
def pyFloatParse (cs0 : List Char) : Option FloatRep :=
  match pyStrip cs0 with
  | '+' :: rest => pyFloatParseCore false rest
  | '-' :: rest => pyFloatParseCore true rest
  | _ => pyFloatParseCore false (pyStrip cs0)

/-- Exact value of a parsed float literal. -/
def FloatRep.val : FloatRep → PyFloat
  | .num neg ip fp ex =>
    let m : ℚ := (digitsToNat ip : ℚ) + (digitsToNat fp : ℚ) / 10 ^ fp.length
    .finite (if neg then -(m * pow10 ex) else m * pow10 ex)
  | .inf b => .inf b
  | .nan => .nan

/-- Python `float(s)` on a character list (`none` models `ValueError`). -/
def pyFloatOfList (cs : List Char) : Option PyFloat :=
  (pyFloatParse cs).map FloatRep.val

/-- `TreasuryStatementExtractor._parse_amount` (extractor.py lines
355-364): remove commas, call `float()`, and return `0.0` when `float()`
raises (the `except` branch). -/
def parse_amount (s : String) : PyFloat :=
  (pyFloatOfList (s.toList.filter (fun c => !(c == ',')))).getD (.finite 0)

/-- The spec-side reading of a numeric token: the decimal value of a
digit string with at most one decimal point (integer part before the first
dot, fractional part after it). -/
def decimalValue (cs : List Char) : ℚ :=
  (digitsToNat (cs.takeWhile (fun c => !(c == '.'))) : ℚ) +
    (digitsToNat ((cs.dropWhile (fun c => !(c == '.'))).drop 1) : ℚ) /
      10 ^ ((cs.dropWhile (fun c => !(c == '.'))).drop 1).length

/-! ### General properties of the numeric normalizer -/

/-! ## `_parse_budget_line` (extractor.py lines 314-353)

The three regex patterns are compiled into deterministic matchers.  In each
pattern the numeric character class (digits, commas, dots) is disjoint from
`\s`, so the greedy runs below coincide with what Python's backtracking
engine matches, and the lazy `(.+?)` group is the increasing-length scan
`scanCat`. -/

/-- The character class of the numeric groups: digits, commas and dots. -/
def numChar (c : Char) : Bool := c.isDigit || c == ',' || c == '.'

/-- `\s+`: the maximal (non-empty) whitespace run. -/
def wsTake (cs : List Char) : Option (List Char × List Char) :=
  if cs.takeWhile isPyWS = [] then none
  else some (cs.takeWhile isPyWS, cs.dropWhile isPyWS)

/-- Greedy `(?:,\d{3})*`: maximal run of comma-plus-three-digits groups. -/
def commaGroups : List Char → List Char × List Char
  | ',' :: a :: b :: c :: t =>
    if a.isDigit && b.isDigit && c.isDigit then
      (',' :: a :: b :: c :: (commaGroups t).1, (commaGroups t).2)
    else ([], ',' :: a :: b :: c :: t)
  | cs => ([], cs)

/-- Greedy `(?:\.\d+)?`: an optional dot followed by a digit run. -/
def decPart (cs : List Char) : List Char × List Char :=
  match cs with
  | '.' :: t =>
    if t.takeWhile Char.isDigit = [] then ([], '.' :: t)
    else ('.' :: t.takeWhile Char.isDigit, t.dropWhile Char.isDigit)
  | _ => ([], cs)

/-- Pattern-1 numeric group `\d{1,3}(?:,\d{3})*(?:\.\d+)?`. -/
def num1 (cs : List Char) : Option (List Char × List Char) :=
  if (cs.takeWhile Char.isDigit).take 3 = [] then none
  else
    some ((cs.takeWhile Char.isDigit).take 3 ++
        (commaGroups (cs.drop ((cs.takeWhile Char.isDigit).take 3).length)).1 ++
        (decPart (commaGroups
          (cs.drop ((cs.takeWhile Char.isDigit).take 3).length)).2).1,
      (decPart (commaGroups
        (cs.drop ((cs.takeWhile Char.isDigit).take 3).length)).2).2)

/-- Pattern-2 numeric group `\d+(?:\.\d+)?`. -/
def num2 (cs : List Char) : Option (List Char × List Char) :=
  if cs.takeWhile Char.isDigit = [] then none
  else
    some (cs.takeWhile Char.isDigit ++ (decPart (cs.dropWhile Char.isDigit)).1,
      (decPart (cs.dropWhile Char.isDigit)).2)

/-- Pattern-3 numeric group `\d[\d,\.]*`. -/
def num3 : List Char → Option (List Char × List Char)
  | [] => none
  | c :: t =>
    if c.isDigit then some (c :: t.takeWhile numChar, t.dropWhile numChar)
    else none

/-- The groups matched after the category: three whitespace runs and three
numeric groups, plus the unmatched remainder of the line (`re.match` only
anchors at the start, so the remainder may be non-empty). -/
structure TailG where
  w1 : List Char
  n1 : List Char
  w2 : List Char
  n2 : List Char
  w3 : List Char
  n3 : List Char
  rest : List Char
deriving DecidableEq

/-- `\s+(num)\s+(num)\s+(num)` after the category. -/
def tailMatch (num : List Char → Option (List Char × List Char))
    (cs : List Char) : Option TailG :=
  match wsTake cs with
  | none => none
  | some (w1, r1) =>
    match num r1 with
    | none => none
    | some (n1, r2) =>
      match wsTake r2 with
      | none => none
      | some (w2, r3) =>
        match num r3 with
        | none => none
        | some (n2, r4) =>
          match wsTake r4 with
          | none => none
          | some (w3, r5) =>
            match num r5 with
            | none => none
            | some (n3, r6) => some ⟨w1, n1, w2, n2, w3, n3, r6⟩

/-- The lazy `(.+?)` scan: category lengths are tried in increasing order
and the first position whose suffix matches wins; `.` does not match a
newline, so the category cannot extend across one. -/
def scanCat (num : List Char → Option (List Char × List Char)) :
    List Char → List Char → Option (List Char × TailG)
  | _, [] => none
  | acc, c :: t =>
    if c == '\n' then none
    else
      match tailMatch num t with
      | some g => some (acc ++ [c], g)
      | none => scanCat num (acc ++ [c]) t

/-- `re.match` of one full pattern `(.+?)\s+(num)\s+(num)\s+(num)`. -/
def matchPattern (num : List Char → Option (List Char × List Char))
    (cs : List Char) : Option (List Char × TailG) :=
  scanCat num [] cs

/-- One parsed budget row, with the fields built by `_parse_budget_line`
(`category`, `this_month`, `fiscal_year_to_date`, `budget_estimate` — the
code never produces a `prior_period` field). -/
structure BudgetItem where
  category : String
  this_month : PyFloat
  fiscal_year_to_date : PyFloat
  budget_estimate : PyFloat
deriving DecidableEq

/-- `TreasuryStatementExtractor._parse_budget_line` (extractor.py lines
314-353): try the three patterns in source order, stop at the first that
matches a prefix of the line, and build the record from the four captured
groups (`group(1).strip()` and three `_parse_amount` calls). -/
def parse_budget_line (text : String) : Option BudgetItem :=
  match matchPattern num1 text.toList <|> matchPattern num2 text.toList <|>
      matchPattern num3 text.toList with
  | some (cat, g) => some
      { category := String.mk (pyStrip cat)
        this_month := parse_amount (String.mk g.n1)
        fiscal_year_to_date := parse_amount (String.mk g.n2)
        budget_estimate := parse_amount (String.mk g.n3) }
  | none => none

/-! ### Soundness of the budget-line matchers -/

/-- Soundness statement for a numeric-group matcher: on success the group
is a non-empty prefix over the numeric character class. -/
def NumSound (num : List Char → Option (List Char × List Char)) : Prop :=
  ∀ cs n r, num cs = some (n, r) →
    cs = n ++ r ∧ n ≠ [] ∧ ∀ x ∈ n, numChar x = true

/-- The well-formedness facts about the matched groups: the whitespace
runs are non-empty whitespace and the numeric groups are non-empty
digit/comma/dot strings. -/
def TailProps (g : TailG) : Prop :=
  (g.w1 ≠ [] ∧ ∀ c ∈ g.w1, isPyWS c = true) ∧
  (g.w2 ≠ [] ∧ ∀ c ∈ g.w2, isPyWS c = true) ∧
  (g.w3 ≠ [] ∧ ∀ c ∈ g.w3, isPyWS c = true) ∧
  (g.n1 ≠ [] ∧ ∀ c ∈ g.n1, numChar c = true) ∧
  (g.n2 ≠ [] ∧ ∀ c ∈ g.n2, numChar c = true) ∧
  (g.n3 ≠ [] ∧ ∀ c ∈ g.n3, numChar c = true)

/-! ## `_process_budget_table_data` (extractor.py lines 261-312) -/

inductive Sect where
  | receipts
  | outlays
deriving DecidableEq

/-- The loop state of `_process_budget_table_data`: the current section
and the two accumulated record lists. -/
structure TableAcc where
  current : Option Sect
  receipts : List BudgetItem
  outlays : List BudgetItem
deriving DecidableEq

/-- A line announces the receipts section when it contains
"Budget Receipts" or "Income Tax" as a substring. -/
def isReceiptsMarker (cs : List Char) : Bool :=
  isSubstring "Budget Receipts".toList cs || isSubstring "Income Tax".toList cs

/-- A line announces the outlays section when it contains
"Budget Outlays" or "Health" as a substring. -/
def isOutlaysMarker (cs : List Char) : Bool :=
  isSubstring "Budget Outlays".toList cs || isSubstring "Health".toList cs

/-- One iteration of the OCR loop: strip the text, skip it when empty,
switch the current section when it contains a marker substring
(`continue` — a marker line is never parsed as a row), otherwise parse it
into the current section's list; rows seen before any marker are
dropped. -/
def processLine (st : TableAcc) (raw : String) : TableAcc :=
  if pyStrip raw.toList = [] then st
  else if isReceiptsMarker (pyStrip raw.toList) = true then
    { st with current := some .receipts }
  else if isOutlaysMarker (pyStrip raw.toList) = true then
    { st with current := some .outlays }
  else
    match st.current with
    | some .receipts =>
      match parse_budget_line (String.mk (pyStrip raw.toList)) with
      | some item => { st with receipts := st.receipts ++ [item] }
      | none => st
    | some .outlays =>
      match parse_budget_line (String.mk (pyStrip raw.toList)) with
      | some item => { st with outlays := st.outlays ++ [item] }
      | none => st
    | none => st

/-- `TreasuryStatementExtractor._process_budget_table_data` (extractor.py
lines 261-312): fold the loop over the OCR texts (bounding boxes and
confidence scores are only logged) and return the two lists. -/
def process_budget_table_data (texts : List String) :
    List BudgetItem × List BudgetItem :=
  ((texts.foldl processLine ⟨none, [], []⟩).receipts,
   (texts.foldl processLine ⟨none, [], []⟩).outlays)

/-- The 4-line synthetic input of the end-to-end example. -/
def demoLines : List String :=
  ["Budget Receipts",
   "Individual Income Taxes 198,779 926,432 850,000 2,254,000",
   "Budget Outlays",
   "Health and Human Services 146,782 682,511 650,000 1,650,000"]

/-! ## `_extract_budget_table` fallback and `_create_mock_budget_data`
(extractor.py lines 164-220) -/

/-- `_create_mock_budget_data`: the canned fallback returned when no
budget data was extracted.  (The Python dict holds integers; they appear
here as the corresponding exact `PyFloat` values.) -/
def create_mock_budget_data : List BudgetItem × List BudgetItem :=
  ([⟨"Individual Income Taxes", .finite 198779000000,
      .finite 926432000000, .finite 2254000000000⟩,
    ⟨"Corporation Income Taxes", .finite 7929000000,
      .finite 87562000000, .finite 382000000000⟩,
    ⟨"Total Receipts", .finite 331298000000,
      .finite 1524825000000, .finite 4446000000000⟩],
   [⟨"Health and Human Services", .finite 146782000000,
      .finite 682511000000, .finite 1650000000000⟩,
    ⟨"Social Security Administration", .finite 116721000000,
      .finite 489217000000, .finite 1320000000000⟩,
    ⟨"Total Outlays", .finite 529196000000,
      .finite 2405319000000, .finite 6400000000000⟩])

/-- The post-OCR part of `_extract_budget_table` (extractor.py lines
164-175): process the OCR text stream; when neither section produced any
record, return the canned mock data instead of raising. -/
def extract_budget_table_post (texts : List String) :
    List BudgetItem × List BudgetItem :=
  if (process_budget_table_data texts).1 = [] ∧
      (process_budget_table_data texts).2 = [] then
    create_mock_budget_data
  else process_budget_table_data texts

/-! ## Metadata resolution: `parse_filename` (main.py lines 115-131),
`extract_metadata_from_filename` (extract_budget_comparison.py lines
108-128) and the month/year part of `_extract_metadata` (extractor.py
lines 68-125) -/

/-- Python `int(s)` core after stripping and sign removal: a digit run
(underscores allowed between digits) consuming the entire input. -/
def pyIntCore (cs : List Char) : Option Int :=
  if (udigits cs).1 = [] ∨ (udigits cs).2 ≠ [] then none
  else some (digitsToNat (udigits cs).1 : Int)

/-- Python `int(s)`: strip whitespace, one optional sign, digits;
`none` models a raised `ValueError`. -/
def pyIntOfList (cs0 : List Char) : Option Int :=
  match pyStrip cs0 with
  | '+' :: rest => pyIntCore rest
  | '-' :: rest => (pyIntCore rest).map (fun n => -n)
  | _ => pyIntCore (pyStrip cs0)

/-- Python slice `s[a:b]` (for `a ≤ b`); out-of-range bounds simply
shorten the result, they never raise. -/
def pySlice (cs : List Char) (a b : Nat) : List Char := (cs.drop a).take (b - a)

/-- The month-name table shared by all three metadata decoders. -/
def monthsList : List String :=
  ["January", "February", "March", "April", "May", "June",
   "July", "August", "September", "October", "November", "December"]

/-- Digits of `n` in base 10, most significant first, computed with
structural fuel so that it stays kernel-reducible. -/
def natDigits (fuel n : Nat) : List Char :=
  match fuel with
  | 0 => []
  | fuel + 1 =>
    if n < 10 then [Char.ofNat (48 + n)]
    else natDigits fuel (n / 10) ++ [Char.ofNat (48 + n % 10)]

/-- Python `str` of an `int`. -/
def pyIntStr (i : Int) : String :=
  match i with
  | .ofNat n => String.mk (natDigits (n + 1) n)
  | .negSucc n => "-" ++ String.mk (natDigits (n + 2) (n + 1))

/-- `parse_filename` (src/src/api/main.py lines 115-131): decode
`mtsMMYY.pdf`-style names from fixed character offsets; the month index is
validated to 1..12 (else "Unknown"), the year is `"20"` followed by
Python's `str()` of the parsed two-digit integer, and an `int()` failure
yields the ("Unknown", "Unknown") sentinel.  (The code never checks an
`mts` prefix here.) -/
def parse_filename (filename : String) : String × String :=
  match pyIntOfList (pySlice filename.toList 3 5),
      pyIntOfList (pySlice filename.toList 5 7) with
  | some mn, some yn =>
    ((if 1 ≤ mn ∧ mn ≤ 12 then
        (monthsList.get? (mn - 1).toNat).getD "Unknown" else "Unknown"),
      "20" ++ pyIntStr yn)
  | _, _ => ("Unknown", "Unknown")

structure FileMeta where
  month : String
  year : String
  period : String
deriving DecidableEq

/-- `extract_metadata_from_filename` (src/extract_budget_comparison.py
lines 108-128): the same decoding, returning month, year and the combined
period label. -/
def extract_metadata_from_filename (filename : String) : FileMeta :=
  match pyIntOfList (pySlice filename.toList 3 5),
      pyIntOfList (pySlice filename.toList 5 7) with
  | some mn, some yn =>
    { month := if 1 ≤ mn ∧ mn ≤ 12 then
        (monthsList.get? (mn - 1).toNat).getD "Unknown" else "Unknown"
      year := "20" ++ pyIntStr yn
      period := (if 1 ≤ mn ∧ mn ≤ 12 then
          (monthsList.get? (mn - 1).toNat).getD "Unknown" else "Unknown") ++
        " " ++ ("20" ++ pyIntStr yn) }
  | _, _ => { month := "Unknown", year := "Unknown", period := "Unknown" }

/-- The date regex `(January|...|December)\s+(\d{4})` anchored at the
start of `cs`: the month name must be a literal prefix, followed by
whitespace and four digits. -/
def matchMonthYearAt (cs : List Char) : Option (String × Nat) :=
  monthsList.findSome? fun mname =>
    if mname.toList.isPrefixOf cs then
      match wsTake (cs.drop mname.toList.length) with
      | some (_, r2) =>
        if (r2.take 4).length = 4 ∧ (∀ c ∈ r2.take 4, c.isDigit = true) then
          some (mname, digitsToNat (r2.take 4))
        else none
      | none => none
    else none

/-- `re.search` of the date regex: leftmost match position wins. -/
def searchMonthYear : List Char → Option (String × Nat)
  | [] => none
  | c :: t =>
    match matchMonthYearAt (c :: t) with
    | some r => some r
    | none => searchMonthYear t

/-- The month/year resolution of `_extract_metadata` (extractor.py lines
84-116), applied to the already-extracted first-page text and the PDF's
basename: tier 1 searches the text for `<MonthName> <4-digit year>`;
tier 2 decodes an `mts`-prefixed filename of length ≥ 7 (month index
validated to 1..12, year `2000 + yy`); when both fail, month and year
stay `none` (Python `None`). -/
def extract_metadata_month_year (text filename : String) :
    Option String × Option Int :=
  match searchMonthYear text.toList with
  | some (m, y) => (some m, some (y : Int))
  | none =>
    if "mts".toList.isPrefixOf filename.toList ∧ 7 ≤ filename.toList.length then
      match pyIntOfList (pySlice filename.toList 3 5),
          pyIntOfList (pySlice filename.toList 5 7) with
      | some mn, some yn =>
        ((if 1 ≤ mn ∧ mn ≤ 12 then monthsList.get? (mn - 1).toNat else none),
          some (2000 + yn))
      | _, _ => (none, none)
    else (none, none)

/-! ## Ratio computation (`calculate_budget_comparison`,
extract_budget_comparison.py lines 300-316, and
`extract_departments_data`, main.py lines 242-248) -/

/-- Python's `round` to the nearest integer (half to even). -/
def pyRoundInt (q : ℚ) : ℤ :=
  if q - ⌊q⌋ < 1 / 2 then ⌊q⌋
  else if 1 / 2 < q - ⌊q⌋ then ⌊q⌋ + 1
  else if ⌊q⌋ % 2 = 0 then ⌊q⌋ else ⌊q⌋ + 1

/-- Python `round(x, 2)` (float rounding abstracted to exact rationals). -/
def pyRound2 (q : ℚ) : ℚ := (pyRoundInt (q * 100) : ℚ) / 100

/-- The ratio computation shared verbatim by `calculate_budget_comparison`
and `extract_departments_data`: when `budget_estimate > 0` the ratio is
`this_month / budget_estimate * 100`, else `0`; the result is
`round(ratio, 2)`. -/
def ratio_percentage (this_month budget_estimate : ℚ) : ℚ :=
  pyRound2 (if 0 < budget_estimate then this_month / budget_estimate * 100 else 0)

/-! ## Percentage change (`_calculate_percentage_change`, api.py lines
228-232; `compare_statements`, main.py lines 439-609) -/

/-- `_calculate_percentage_change` (src/src/lib/pdf/api.py lines 228-232):
`None` when `previous` is `None` or `0`, else the relative change in
percent. -/
def calculate_percentage_change (current : ℚ) (previous : Option ℚ) :
    Option ℚ :=
  match previous with
  | none => none
  | some p => if p = 0 then none else some ((current - p) / p * 100)

/-- One summary entry built by api.py's `compare_statements`
(lines 168-170 and 182-196): `(primary, comparison, change)`, where the
change is computed only when the comparison value is truthy (`None` and
`0.0` are both falsy in the guard `if comparison_receipts`). -/
def apiSummaryEntry (primary : ℚ) (comparisonVal : Option ℚ) :
    ℚ × Option ℚ × Option ℚ :=
  (primary, comparisonVal,
    match comparisonVal with
    | none => none
    | some cv =>
      if cv = 0 then none else calculate_percentage_change primary (some cv))

/-- One mock summary entry of main.py's `compare_statements`: `previous`
is optional, but `change_percent` is a plain float (the `BudgetItem`
pydantic model declares `change_percent: float`, not `Optional`). -/
structure MockEntry where
  current : ℚ
  previous : Option ℚ
  change_percent : ℚ
deriving DecidableEq

/-- The receipts entry of the mock summary in main.py's
`compare_statements` (lines 461-465): `293950000000 if comparison else
None` and `12.7 if comparison else 0`. -/
def mockSummaryReceipts (hasComparison : Bool) : MockEntry :=
  { current := 331298000000
    previous := if hasComparison then some 293950000000 else none
    change_percent := if hasComparison then 127 / 10 else 0 }

/-! ## Department ranking: `compare_departments` (main.py lines 417-430) -/

structure DeptRank where
  department : String
  ratio_percentage : ℚ
deriving DecidableEq

/-- The descending key comparison of `sort(key=lambda x:
x.get("ratio_percentage", 0), reverse=True)`.  Python's sort is stable;
since the output of a stable sort under a fixed total preorder is unique,
it is modelled by the stable `List.mergeSort`. -/
def ratioGE (a b : DeptRank) : Bool :=
  decide (b.ratio_percentage ≤ a.ratio_percentage)

def sortDepartments (ds : List DeptRank) : List DeptRank :=
  ds.mergeSort ratioGE

/-- `departments[:5] if len(departments) >= 5 else departments`. -/
def top_departments (ds : List DeptRank) : List DeptRank :=
  if 5 ≤ (sortDepartments ds).length then (sortDepartments ds).take 5
  else sortDepartments ds

/-- `departments[-5:] if len(departments) >= 5 else []`. -/
def bottom_departments (ds : List DeptRank) : List DeptRank :=
  if 5 ≤ (sortDepartments ds).length then
    (sortDepartments ds).drop ((sortDepartments ds).length - 5)
  else []

/-! ## Department row extraction: `extract_budget_data` in
src/src/api/main.py (lines 152-184) versus `extract_budget_data` in
src/extract_budget_comparison.py (lines 77-106).  The two functions build
the same regex `rf"{dept}\s+([\d,]+)\s+([\d,]+)\s+([\d,]+)\s+([\d,]+)"`
(department names contain no regex metacharacters, so the interpolated
name matches literally) and parse the groups identically; the API version
additionally multiplies every parsed value by 1,000,000. -/

/-- `[\d,]+`: maximal non-empty run of digits and commas. -/
def digitsCommas (cs : List Char) : Option (List Char × List Char) :=
  if cs.takeWhile (fun c => c.isDigit || c == ',') = [] then none
  else some (cs.takeWhile (fun c => c.isDigit || c == ','),
    cs.dropWhile (fun c => c.isDigit || c == ','))

/-- The department pattern anchored at the current position: the literal
department name, then four whitespace-separated `[\d,]+` groups. -/
def matchDeptAt (dept cs : List Char) :
    Option (List Char × List Char × List Char × List Char) :=
  if dept.isPrefixOf cs then
    match wsTake (cs.drop dept.length) with
    | none => none
    | some (_, r1) =>
      match digitsCommas r1 with
      | none => none
      | some (g1, r2) =>
        match wsTake r2 with
        | none => none
        | some (_, r3) =>
          match digitsCommas r3 with
          | none => none
          | some (g2, r4) =>
            match wsTake r4 with
            | none => none
            | some (_, r5) =>
              match digitsCommas r5 with
              | none => none
              | some (g3, r6) =>
                match wsTake r6 with
                | none => none
                | some (_, r7) =>
                  match digitsCommas r7 with
                  | none => none
                  | some (g4, _) => some (g1, g2, g3, g4)
  else none

/-- `re.search` of the department pattern: scan positions left to right. -/
def searchDeptPattern (dept : List Char) :
    List Char → Option (List Char × List Char × List Char × List Char)
  | [] => matchDeptAt dept []
  | c :: t =>
    match matchDeptAt dept (c :: t) with
    | some r => some r
    | none => searchDeptPattern dept t

/-- `int(group.replace(',', ''))` for a `[\d,]+` group: the group is made
of digits and commas only, so the call fails (raises `ValueError`) exactly
when the group contains no digit at all. -/
def intOfGroup (g : List Char) : Except String Nat :=
  if g.filter (fun c => !(c == ',')) = [] then
    Except.error "invalid literal for int"
  else Except.ok (digitsToNat (g.filter (fun c => !(c == ','))))

/-- One department's figures, as built by both extractors. -/
structure DeptData where
  department : String
  this_month : Nat
  fiscal_year_to_date : Nat
  prior_period : Nat
  budget_estimate : Nat
deriving DecidableEq

/-- The group-parsing tail of the script-path `extract_budget_data`:
four `int` calls in source order, then the record. -/
def script_parse_groups (dept : String) (g1 g2 g3 g4 : List Char) :
    Except String (Option DeptData) :=
  match intOfGroup g1 with
  | .error e => .error e
  | .ok a =>
    match intOfGroup g2 with
    | .error e => .error e
    | .ok b =>
      match intOfGroup g3 with
      | .error e => .error e
      | .ok c =>
        match intOfGroup g4 with
        | .error e => .error e
        | .ok d => Except.ok (some ⟨dept, a, b, c, d⟩)

/-- The group-parsing tail of the API-path `extract_budget_data`: the same
four `int` calls, each value multiplied by the scale 1,000,000 ("assuming
the extracted values are in millions"). -/
def api_parse_groups (dept : String) (g1 g2 g3 g4 : List Char) :
    Except String (Option DeptData) :=
  match intOfGroup g1 with
  | .error e => .error e
  | .ok a =>
    match intOfGroup g2 with
    | .error e => .error e
    | .ok b =>
      match intOfGroup g3 with
      | .error e => .error e
      | .ok c =>
        match intOfGroup g4 with
        | .error e => .error e
        | .ok d => Except.ok (some
            ⟨dept, a * 1000000, b * 1000000, c * 1000000, d * 1000000⟩)

/-- `extract_budget_data` (src/extract_budget_comparison.py lines 77-106):
falsy text short-circuits to `None`; a missing match returns `None`; a
match parses the four groups with `int` in order — an uncaught
`ValueError` (all-commas group) is modelled as `.error`. -/
def script_extract_budget_data (text dept : String) :
    Except String (Option DeptData) :=
  if text = "" then Except.ok none
  else
    match searchDeptPattern dept.toList text.toList with
    | none => Except.ok none
    | some (g1, g2, g3, g4) => script_parse_groups dept g1 g2 g3 g4

/-- `extract_budget_data` (src/src/api/main.py lines 152-184): identical
to the script version except for the 1,000,000 scaling of each value. -/
def api_extract_budget_data (text dept : String) :
    Except String (Option DeptData) :=
  if text = "" then Except.ok none
  else
    match searchDeptPattern dept.toList text.toList with
    | none => Except.ok none
    | some (g1, g2, g3, g4) => api_parse_groups dept g1 g2 g3 g4

/-- Scaling a department record by the API path's factor of 1,000,000. -/
def scaleDeptData (d : DeptData) : DeptData :=
  ⟨d.department, d.this_month * 1000000, d.fiscal_year_to_date * 1000000,
    d.prior_period * 1000000, d.budget_estimate * 1000000⟩

/-! ## Theorems -/

/-- Evaluation helper: the value of a parsed finite literal, with the digit
strings pre-evaluated to numerals. -/
theorem FloatRep.val_num_eval (neg : Bool) (ip fp : List Char) (ex : Int)
    (a b k : Nat) (h1 : digitsToNat ip = a) (h2 : digitsToNat fp = b)
    (h3 : fp.length = k) :
    FloatRep.val (.num neg ip fp ex) =
      .finite (if neg then -(((a : ℚ) + (b : ℚ) / 10 ^ k) * pow10 ex)
               else ((a : ℚ) + (b : ℚ) / 10 ^ k) * pow10 ex) := by
  subst h1 h2 h3; rfl

/-- Evaluation helper: `parse_amount` through a known parse result. -/
theorem parse_amount_eval (s : String) (r : FloatRep)
    (h : pyFloatParse (s.toList.filter (fun c => !(c == ','))) = some r) :
    parse_amount s = r.val := by
  rw [parse_amount, pyFloatOfList, h] ; rfl

example : parse_amount "198,779" = .finite 198779 := by
  rw [parse_amount_eval "198,779" (.num false "198779".toList [] 0) (by decide),
    FloatRep.val_num_eval _ _ _ _ 198779 0 0 (by decide) (by decide) (by decide)]
  norm_num [pow10]

example : parse_amount "1,234.5" = .finite (2469 / 2) := by
  rw [parse_amount_eval "1,234.5" (.num false "1234".toList "5".toList 0) (by decide),
    FloatRep.val_num_eval _ _ _ _ 1234 5 1 (by decide) (by decide) (by decide)]
  norm_num [pow10]

example : parse_amount "abc" = .finite 0 := by
  rw [parse_amount, pyFloatOfList, show pyFloatParse ("abc".toList.filter
    (fun c => !(c == ','))) = none from by decide] ; rfl

example : parse_amount "-3" = .finite (-3) := by
  rw [parse_amount_eval "-3" (.num true "3".toList [] 0) (by decide),
    FloatRep.val_num_eval _ _ _ _ 3 0 0 (by decide) (by decide) (by decide)]
  norm_num [pow10]

example : parse_amount "1e3" = .finite 1000 := by
  rw [parse_amount_eval "1e3" (.num false "1".toList [] 3) (by decide),
    FloatRep.val_num_eval _ _ _ _ 1 0 0 (by decide) (by decide) (by decide)]
  norm_num [pow10]

example : parse_amount "inf" = .inf false := by
  rw [parse_amount_eval "inf" (.inf false) (by decide)] ; rfl

theorem dropWhile_eq_self_of {p : Char → Bool} {cs : List Char}
    (h : ∀ c ∈ cs, p c = false) : cs.dropWhile p = cs := by
  cases cs with
  | nil => rfl
  | cons c t => simp [List.dropWhile_cons, h c (by simp)]

theorem takeWhile_eq_self_of {p : Char → Bool} : ∀ {cs : List Char},
    (∀ c ∈ cs, p c = true) → cs.takeWhile p = cs
  | [], _ => rfl
  | c :: t, h => by
    simp only [List.takeWhile_cons, h c (by simp), if_true]
    rw [takeWhile_eq_self_of (fun x hx => h x (by simp [hx]))]

theorem dropWhile_eq_nil_of {p : Char → Bool} : ∀ {cs : List Char},
    (∀ c ∈ cs, p c = true) → cs.dropWhile p = []
  | [], _ => rfl
  | c :: t, h => by
    simp only [List.dropWhile_cons, h c (by simp), if_true]
    exact dropWhile_eq_nil_of (fun x hx => h x (by simp [hx]))

theorem pyStrip_eq_self {cs : List Char} (h : ∀ c ∈ cs, isPyWS c = false) :
    pyStrip cs = cs := by
  unfold pyStrip
  rw [dropWhile_eq_self_of h,
    dropWhile_eq_self_of (fun c hc => h c (by simpa using hc)),
    List.reverse_reverse]

theorem dropWhile_head_false {p : Char → Bool} : ∀ {cs : List Char} {e : Char}
    {tl : List Char}, cs.dropWhile p = e :: tl → p e = false := by
  intro cs
  induction cs with
  | nil => intro e tl h; cases h
  | cons c t ih =>
    intro e tl h
    rw [List.dropWhile_cons] at h
    by_cases hc : p c = true
    · rw [if_pos hc] at h; exact ih h
    · rw [if_neg hc] at h
      cases h
      exact Bool.eq_false_iff.mpr hc

theorem takeWhile_congr_of {p q : Char → Bool} : ∀ {cs : List Char},
    (∀ c ∈ cs, p c = q c) →
    cs.takeWhile p = cs.takeWhile q ∧ cs.dropWhile p = cs.dropWhile q
  | [], _ => ⟨rfl, rfl⟩
  | c :: t, h => by
    have hc := h c (by simp)
    have ih := takeWhile_congr_of
      (show ∀ x ∈ t, p x = q x from fun x hx => h x (by simp [hx]))
    constructor
    · rw [List.takeWhile_cons, List.takeWhile_cons, hc, ih.1]
    · rw [List.dropWhile_cons, List.dropWhile_cons, hc, ih.2]

/-- On inputs without underscores, `udigits` is the plain digit span. -/
theorem udigits_span : ∀ {cs : List Char}, '_' ∉ cs →
    udigits cs = (cs.takeWhile Char.isDigit, cs.dropWhile Char.isDigit)
  | [], _ => rfl
  | [c], h => by
    by_cases hc : c.isDigit = true <;>
      simp [udigits, hc, List.takeWhile_cons, List.dropWhile_cons]
  | c :: d :: rest, h => by
    have hu : '_' ∉ d :: rest := fun hm => h (by simp [hm])
    have ihd := udigits_span hu
    have hdu : d ≠ '_' := fun he => h (by simp [he])
    by_cases hc : c.isDigit = true
    · by_cases hd : d.isDigit = true
      · simp [udigits, hc, hd, ihd, List.takeWhile_cons, List.dropWhile_cons]
      · simp [udigits, hc, hd, hdu, List.takeWhile_cons, List.dropWhile_cons]
    · simp [udigits, hc, List.takeWhile_cons, List.dropWhile_cons]

theorem udigits_all_digits {cs : List Char} (h : ∀ c ∈ cs, c.isDigit = true) :
    udigits cs = (cs, []) := by
  rw [udigits_span (fun hm => by simpa using h '_' hm),
    takeWhile_eq_self_of h, dropWhile_eq_nil_of h]

theorem isDigit_toNat {c : Char} (h : c.isDigit = true) :
    48 ≤ c.toNat ∧ c.toNat ≤ 57 := by
  unfold Char.isDigit at h
  rw [Bool.and_eq_true, decide_eq_true_eq, decide_eq_true_eq] at h
  exact ⟨h.1, h.2⟩

theorem toLower_eq_self_of_small {c : Char} (h : c.toNat < 65) :
    c.toLower = c := by
  unfold Char.toLower
  rw [if_neg]
  intro hc
  omega

/-- No character of a digits-and-dot token lowercases to a letter. -/
theorem map_toLower_no_letter {cs : List Char}
    (hall : ∀ c ∈ cs, c.isDigit = true ∨ c = '.')
    (l : Char) (hl : 65 ≤ l.toNat) (hmem : l ∈ cs.map Char.toLower) : False := by
  rcases List.mem_map.mp hmem with ⟨c, hc, hre⟩
  rcases hall c hc with h | h
  · rcases isDigit_toNat h with ⟨h1, h2⟩
    rw [toLower_eq_self_of_small (by omega)] at hre
    subst hre; omega
  · subst h
    rw [show ('.' : Char).toLower = '.' from rfl] at hre
    subst hre
    revert hl; decide

/-- Python `float()` on a token made of digits and at most one decimal
point (with at least one digit): the parse succeeds, splitting the token at
the decimal point, with no sign and no exponent. -/
theorem pyFloatParseCore_token {cs : List Char}
    (hall : ∀ c ∈ cs, c.isDigit = true ∨ c = '.')
    (hdot : cs.count '.' ≤ 1)
    (hdig : ∃ c ∈ cs, c.isDigit = true) :
    pyFloatParseCore false cs =
      some (.num false (cs.takeWhile Char.isDigit)
        ((cs.dropWhile Char.isDigit).drop 1) 0) := by
  have hund : '_' ∉ cs := by
    intro hm
    rcases hall _ hm with h | h
    · exact absurd h (by decide)
    · exact absurd h (by decide)
  have hspan := udigits_span hund
  have hinf : ¬(cs.map Char.toLower = "inf".toList ∨
      cs.map Char.toLower = "infinity".toList) := by
    rintro (h | h) <;>
      exact map_toLower_no_letter hall 'i' (by decide) (by rw [h]; decide)
  have hnan : ¬(cs.map Char.toLower = "nan".toList) := by
    intro h
    exact map_toLower_no_letter hall 'n' (by decide) (by rw [h]; decide)
  unfold pyFloatParseCore
  rw [if_neg hinf, if_neg hnan]
  cases hdw : cs.dropWhile Char.isDigit with
  | nil =>
    have halld : ∀ c ∈ cs, c.isDigit = true := List.dropWhile_eq_nil_iff.mp hdw
    have htw : cs.takeWhile Char.isDigit = cs := takeWhile_eq_self_of halld
    have hne : cs ≠ [] := by
      rcases hdig with ⟨c, hc, _⟩
      intro h; rw [h] at hc; cases hc
    have hm : parseMantissa cs = some ((cs, []), []) := by
      unfold parseMantissa
      rw [hspan, hdw, htw]
      simp [hne]
    rw [hm]
    simp [parseExp, htw, hdw]
  | cons e tl =>
    have he : Char.isDigit e = false := dropWhile_head_false hdw
    have hemem : e ∈ cs := by
      have h0 : e ∈ cs.dropWhile Char.isDigit := by
        rw [hdw]; exact List.mem_cons_self e tl
      exact (List.dropWhile_sublist Char.isDigit).subset h0
    have hedot : e = '.' := by
      rcases hall e hemem with h | h
      · rw [h] at he; cases he
      · exact h
    subst hedot
    have hsplit : cs.takeWhile Char.isDigit ++ '.' :: tl = cs := by
      conv_rhs => rw [← List.takeWhile_append_dropWhile (p := Char.isDigit) (l := cs)]
      rw [hdw]
    have htl : ∀ c ∈ tl, c.isDigit = true := by
      intro c hc
      rcases hall c (by rw [← hsplit]; simp [hc]) with h | h
      · exact h
      · subst h
        have h3 : 1 ≤ tl.count '.' := List.one_le_count_iff.mpr hc
        have h2 : 2 ≤ cs.count '.' := by
          rw [← hsplit, List.count_append]
          simp [List.count_cons]
          omega
        omega
    have htlu : udigits tl = (tl, []) := udigits_all_digits htl
    have hnb : ¬(cs.takeWhile Char.isDigit = [] ∧ tl = []) := by
      rintro ⟨h1, h2⟩
      rcases hdig with ⟨c, hc, hcd⟩
      rw [← hsplit, h1, h2] at hc
      simp at hc
      subst hc
      exact absurd hcd (by decide)
    have hm : parseMantissa cs =
        some ((cs.takeWhile Char.isDigit, tl), []) := by
      unfold parseMantissa
      rw [hspan, hdw]
      simp only [htlu, hnb]
      simp [htlu]
    rw [hm]
    simp [parseExp, hdw]

theorem toNat_lt_of_isPyWS {c : Char} (h : isPyWS c = true) : c.toNat < 48 := by
  unfold isPyWS at h
  simp only [Bool.or_eq_true, beq_iff_eq] at h
  rcases h with ((((h | h) | h) | h) | h) | h <;> subst h <;> decide

theorem isPyWS_false_of_token {c : Char}
    (h : c.isDigit = true ∨ c = '.') : isPyWS c = false := by
  rcases h with h | h
  · rcases isDigit_toNat h with ⟨h1, _⟩
    cases hw : isPyWS c with
    | false => rfl
    | true => have := toNat_lt_of_isPyWS hw; omega
  · subst h; decide

/-- On a token whose stripped form starts with neither sign, `float()`
parsing is the unsigned core parse. -/
theorem pyFloatParse_no_sign {cs : List Char} (hws : pyStrip cs = cs)
    (hhead : ∀ c rest, cs = c :: rest → c ≠ '+' ∧ c ≠ '-') :
    pyFloatParse cs = pyFloatParseCore false cs := by
  unfold pyFloatParse
  rw [hws]
  cases hcs : cs with
  | nil => simp
  | cons c0 r =>
    rcases hhead c0 r hcs with ⟨h1, h2⟩
    split
    · rename_i heq
      rw [List.cons.injEq] at heq
      exact absurd heq.1 h1
    · rename_i heq
      rw [List.cons.injEq] at heq
      exact absurd heq.1 h2
    · rfl

/-- `float()` on a list of digits and at most one decimal point, with at
least one digit, yields exactly the decimal value of the list. -/
theorem pyFloatParse_token_val {cs : List Char}
    (hall : ∀ c ∈ cs, c.isDigit = true ∨ c = '.')
    (hdot : cs.count '.' ≤ 1)
    (hdig : ∃ c ∈ cs, c.isDigit = true) :
    ((pyFloatParse cs).map FloatRep.val).getD (.finite 0) =
      .finite (decimalValue cs) := by
  have hws : pyStrip cs = cs :=
    pyStrip_eq_self (fun c hc => isPyWS_false_of_token (hall c hc))
  have hhead : ∀ c rest, cs = c :: rest → c ≠ '+' ∧ c ≠ '-' := by
    intro c rest hcs
    have hc := hall c (by rw [hcs]; simp)
    constructor
    · intro he; subst he
      rcases hc with h | h
      · exact absurd h (by decide)
      · exact absurd h (by decide)
    · intro he; subst he
      rcases hc with h | h
      · exact absurd h (by decide)
      · exact absurd h (by decide)
  rw [pyFloatParse_no_sign hws hhead, pyFloatParseCore_token hall hdot hdig]
  have hpq : ∀ c ∈ cs, Char.isDigit c = (fun c => !(c == '.')) c := by
    intro c hc
    rcases hall c hc with h | h
    · rw [h]
      have hne : ¬(c == '.') = true := by
        intro hb
        rw [beq_iff_eq] at hb
        subst hb
        exact absurd h (by decide)
      simp [hne]
    · subst h; decide
  have hcong := takeWhile_congr_of hpq
  rw [show ∀ r : FloatRep, ((some r).map FloatRep.val).getD (.finite 0) = r.val
    from fun r => rfl]
  rw [FloatRep.val_num_eval _ _ _ _ (digitsToNat (cs.takeWhile Char.isDigit))
    (digitsToNat ((cs.dropWhile Char.isDigit).drop 1))
    ((cs.dropWhile Char.isDigit).drop 1).length rfl rfl rfl]
  rw [decimalValue, ← hcong.1, ← hcong.2]
  simp [pow10, pow_zero, mul_one]

/-- `_parse_amount` on a token made only of digits, commas and at most one
decimal point (containing at least one digit) returns the decimal value of
the token with commas removed. -/
theorem parse_amount_token_spec (s : String)
    (hall : ∀ c ∈ s.toList, c.isDigit = true ∨ c = ',' ∨ c = '.')
    (hdot : s.toList.count '.' ≤ 1)
    (hdig : ∃ c ∈ s.toList, c.isDigit = true) :
    parse_amount s =
      .finite (decimalValue (s.toList.filter (fun c => !(c == ',')))) := by
  unfold parse_amount pyFloatOfList
  apply pyFloatParse_token_val
  · intro c hc
    rw [List.mem_filter] at hc
    rcases hall c hc.1 with h | h | h
    · exact Or.inl h
    · exfalso
      rw [h] at hc
      simpa using hc.2
    · exact Or.inr h
  · exact le_trans ((List.filter_sublist _).count_le '.') hdot
  · rcases hdig with ⟨c, hc, hcd⟩
    refine ⟨c, ?_, hcd⟩
    rw [List.mem_filter]
    refine ⟨hc, ?_⟩
    have hne : c ≠ ',' := by
      intro he; subst he
      exact absurd hcd (by decide)
    show (!(c == ',')) = true
    cases hb : c == ','
    · rfl
    · exact absurd (beq_iff_eq.mp hb) hne

/-- C2, counterexample: `_parse_amount("-3")` returns `-3.0`, not `0`,
although `"-3"` is not composed of digits, commas and at most one decimal
point — Python `float()` also accepts signs (and exponents, whitespace,
`inf`/`nan`), so the "every other string returns 0" half of the claim is
false. -/
theorem parse_amount_sign_counterexample :
    parse_amount "-3" = .finite (-3) ∧
    PyFloat.finite (-3) ≠ PyFloat.finite 0 ∧
    ¬('-'.isDigit = true ∨ '-' = ',' ∨ '-' = '.') := by
  refine ⟨?_, by simp, by decide⟩
  rw [parse_amount_eval "-3" (.num true "3".toList [] 0) (by decide),
    FloatRep.val_num_eval _ _ _ _ 3 0 0 (by decide) (by decide) (by decide)]
  norm_num [pow10]

/-- C2 (amended): `_parse_amount` never raises (it is a total function);
on every token composed only of digits, commas and at most one decimal
point that contains at least one digit it returns the decimal value of the
token with commas removed; and it returns `0` exactly when Python
`float()` fails on the comma-stripped token — strings accepted by
`float()` beyond that token grammar (signs, exponents, surrounding
whitespace, underscores, `inf`/`nan`) return their parsed value instead
of `0`. -/
theorem parse_amount_amended (s : String) :
    ((∀ c ∈ s.toList, c.isDigit = true ∨ c = ',' ∨ c = '.') →
      s.toList.count '.' ≤ 1 →
      (∃ c ∈ s.toList, c.isDigit = true) →
      parse_amount s =
        .finite (decimalValue (s.toList.filter (fun c => !(c == ','))))) ∧
    (pyFloatParse (s.toList.filter (fun c => !(c == ','))) = none →
      parse_amount s = .finite 0) := by
  refine ⟨parse_amount_token_spec s, ?_⟩
  intro h
  unfold parse_amount pyFloatOfList
  rw [h]
  rfl

/-- C2, witness: the amended theorem applied to the concrete token
`"1,234.5"`. -/
theorem parse_amount_amended_witness :
    parse_amount "1,234.5" =
      .finite (decimalValue ("1,234.5".toList.filter (fun c => !(c == ',')))) :=
  (parse_amount_amended "1,234.5").1 (by decide) (by decide) (by decide)

example : matchPattern num1 "A 1 2 3 4".toList =
    some (['A'], ⟨[' '], ['1'], [' '], ['2'], [' '], ['3'], [' ', '4']⟩) := by
  decide

example : matchPattern num1 "Individual Income Taxes 198,779 926,432 850,000 2,254,000".toList =
    some ("Individual Income Taxes".toList,
      ⟨[' '], "198,779".toList, [' '], "926,432".toList, [' '], "850,000".toList,
        " 2,254,000".toList⟩) := by
  decide

example : matchPattern num1 "Header line without numbers".toList = none := by
  decide

theorem prefix_decomp {l1 l : List Char} (h : l1 <+: l) :
    l = l1 ++ l.drop l1.length := by
  rcases h with ⟨t, rfl⟩
  rw [List.drop_left]

theorem wsTake_sound {cs w r : List Char} (h : wsTake cs = some (w, r)) :
    cs = w ++ r ∧ w ≠ [] ∧ ∀ c ∈ w, isPyWS c = true := by
  unfold wsTake at h
  split at h
  · cases h
  · rename_i hne
    rw [Option.some.injEq, Prod.mk.injEq] at h
    obtain ⟨hw, hr⟩ := h
    subst hw; subst hr
    exact ⟨(List.takeWhile_append_dropWhile (p := isPyWS) (l := cs)).symm, hne,
      fun c hc => List.mem_takeWhile_imp hc⟩

theorem commaGroups_eq_fallback {cs : List Char}
    (h : ∀ (a b c : Char) (t : List Char), cs = ',' :: a :: b :: c :: t → False) :
    commaGroups cs = ([], cs) := by
  unfold commaGroups
  split
  · exact (h _ _ _ _ rfl).elim
  · rfl

theorem commaGroups_sound (cs : List Char) :
    cs = (commaGroups cs).1 ++ (commaGroups cs).2 ∧
      ∀ x ∈ (commaGroups cs).1, numChar x = true := by
  induction cs using commaGroups.induct with
  | case1 a b c t h ih =>
    have he : commaGroups (',' :: a :: b :: c :: t) =
        (',' :: a :: b :: c :: (commaGroups t).1, (commaGroups t).2) := by
      simp [commaGroups, h]
    rw [he]
    simp only [Bool.and_eq_true] at h
    constructor
    · simpa using ih.1
    · intro x hx
      simp only [List.mem_cons] at hx
      rcases hx with rfl | rfl | rfl | rfl | hx
      · decide
      · simp [numChar, h.1.1]
      · simp [numChar, h.1.2]
      · simp [numChar, h.2]
      · exact ih.2 x hx
  | case2 a b c t h =>
    have he : commaGroups (',' :: a :: b :: c :: t) =
        ([], ',' :: a :: b :: c :: t) := by
      simp [commaGroups, h]
    rw [he]
    exact ⟨rfl, by simp⟩
  | case3 cs h =>
    rw [commaGroups_eq_fallback h]
    exact ⟨rfl, by simp⟩

theorem decPart_eq_fallback {cs : List Char}
    (h : ∀ t : List Char, cs = '.' :: t → False) : decPart cs = ([], cs) := by
  unfold decPart
  split
  · exact (h _ rfl).elim
  · rfl

theorem decPart_sound (cs : List Char) :
    cs = (decPart cs).1 ++ (decPart cs).2 ∧
      ∀ x ∈ (decPart cs).1, numChar x = true := by
  cases cs with
  | nil =>
    rw [decPart_eq_fallback (by intro t h; cases h)]
    exact ⟨rfl, by simp⟩
  | cons c t =>
    by_cases hc : c = '.'
    · subst hc
      show '.' :: t = (decPart ('.' :: t)).1 ++ (decPart ('.' :: t)).2 ∧ _
      rw [show decPart ('.' :: t) =
          if t.takeWhile Char.isDigit = [] then ([], '.' :: t)
          else ('.' :: t.takeWhile Char.isDigit, t.dropWhile Char.isDigit)
        from rfl]
      by_cases h : t.takeWhile Char.isDigit = []
      · rw [if_pos h]; exact ⟨rfl, by simp⟩
      · rw [if_neg h]
        refine ⟨?_, ?_⟩
        · simp only [List.cons_append, List.cons.injEq, true_and]
          rw [List.takeWhile_append_dropWhile]
        · intro x hx
          rcases List.mem_cons.mp hx with rfl | hx
          · decide
          · simp [numChar, List.mem_takeWhile_imp hx]
    · rw [decPart_eq_fallback (by
        intro t2 h2
        rw [List.cons.injEq] at h2
        exact hc h2.1)]
      exact ⟨rfl, by simp⟩

theorem num1_sound : NumSound num1 := by
  intro cs n r h
  unfold num1 at h
  split at h
  · cases h
  · rename_i hne
    rw [Option.some.injEq, Prod.mk.injEq] at h
    obtain ⟨hn, hr⟩ := h
    subst hn; subst hr
    set d1 := (cs.takeWhile Char.isDigit).take 3 with hd1
    set R := cs.drop d1.length with hR
    set g := commaGroups R with hgdef
    set d := decPart g.2 with hddef
    have hpre : d1 <+: cs := by
      rw [hd1]
      exact (List.take_prefix _ _).trans (List.takeWhile_prefix _)
    have hcs : cs = d1 ++ R := by rw [hR]; exact prefix_decomp hpre
    have hg := commaGroups_sound R
    have hd := decPart_sound g.2
    rw [← hgdef] at hg
    rw [← hddef] at hd
    refine ⟨?_, by simp [hne], ?_⟩
    · conv_lhs => rw [hcs]
      rw [hg.1, hd.1]
      simp [List.append_assoc]
    · intro x hx
      simp only [List.mem_append] at hx
      rcases hx with (hx | hx) | hx
      · have hx2 := List.mem_takeWhile_imp (List.take_subset 3 _ (hd1 ▸ hx))
        simp [numChar, hx2]
      · exact hg.2 x hx
      · exact hd.2 x hx

theorem num2_sound : NumSound num2 := by
  intro cs n r h
  unfold num2 at h
  split at h
  · cases h
  · rename_i hne
    rw [Option.some.injEq, Prod.mk.injEq] at h
    obtain ⟨hn, hr⟩ := h
    subst hn; subst hr
    have hd := decPart_sound (cs.dropWhile Char.isDigit)
    refine ⟨?_, by simp [hne], ?_⟩
    · conv_lhs => rw [← List.takeWhile_append_dropWhile (p := Char.isDigit) (l := cs)]
      conv_lhs => rw [hd.1]
      simp [List.append_assoc]
    · intro x hx
      simp only [List.mem_append] at hx
      rcases hx with hx | hx
      · simp [numChar, List.mem_takeWhile_imp hx]
      · exact hd.2 x hx

theorem num3_sound : NumSound num3 := by
  intro cs n r h
  cases cs with
  | nil => cases h
  | cons c t =>
    by_cases hc : c.isDigit = true
    · rw [show num3 (c :: t) =
          some (c :: t.takeWhile numChar, t.dropWhile numChar)
        from by simp [num3, hc]] at h
      rw [Option.some.injEq, Prod.mk.injEq] at h
      obtain ⟨hn, hr⟩ := h
      subst hn; subst hr
      refine ⟨?_, by simp, ?_⟩
      · simp only [List.cons_append, List.cons.injEq, true_and]
        rw [List.takeWhile_append_dropWhile]
      · intro x hx
        rcases List.mem_cons.mp hx with rfl | hx
        · simp [numChar, hc]
        · exact List.mem_takeWhile_imp hx
    · rw [show num3 (c :: t) = none from by simp [num3, hc]] at h
      cases h

theorem tailMatch_sound {num : List Char → Option (List Char × List Char)}
    (hnum : NumSound num) {cs : List Char} {g : TailG}
    (h : tailMatch num cs = some g) :
    cs = g.w1 ++ g.n1 ++ g.w2 ++ g.n2 ++ g.w3 ++ g.n3 ++ g.rest ∧
      TailProps g := by
  unfold tailMatch at h
  cases h1 : wsTake cs with
  | none => simp [h1] at h
  | some p1 =>
  obtain ⟨w1, r1⟩ := p1
  simp only [h1] at h
  cases h2 : num r1 with
  | none => simp [h2] at h
  | some p2 =>
  obtain ⟨n1, r2⟩ := p2
  simp only [h2] at h
  cases h3 : wsTake r2 with
  | none => simp [h3] at h
  | some p3 =>
  obtain ⟨w2, r3⟩ := p3
  simp only [h3] at h
  cases h4 : num r3 with
  | none => simp [h4] at h
  | some p4 =>
  obtain ⟨n2, r4⟩ := p4
  simp only [h4] at h
  cases h5 : wsTake r4 with
  | none => simp [h5] at h
  | some p5 =>
  obtain ⟨w3, r5⟩ := p5
  simp only [h5] at h
  cases h6 : num r5 with
  | none => simp [h6] at h
  | some p6 =>
  obtain ⟨n3, r6⟩ := p6
  simp only [h6] at h
  rw [Option.some.injEq] at h
  subst h
  obtain ⟨e1, e1n, e1m⟩ := wsTake_sound h1
  obtain ⟨e2, e2n, e2m⟩ := hnum _ _ _ h2
  obtain ⟨e3, e3n, e3m⟩ := wsTake_sound h3
  obtain ⟨e4, e4n, e4m⟩ := hnum _ _ _ h4
  obtain ⟨e5, e5n, e5m⟩ := wsTake_sound h5
  obtain ⟨e6, e6n, e6m⟩ := hnum _ _ _ h6
  refine ⟨?_, ⟨e1n, e1m⟩, ⟨e3n, e3m⟩, ⟨e5n, e5m⟩,
    ⟨e2n, e2m⟩, ⟨e4n, e4m⟩, ⟨e6n, e6m⟩⟩
  rw [e1, e2, e3, e4, e5, e6]
  simp [List.append_assoc]

theorem scanCat_sound {num : List Char → Option (List Char × List Char)}
    (hnum : NumSound num) :
    ∀ {cs acc cat : List Char} {g : TailG},
      scanCat num acc cs = some (cat, g) →
      ∃ mid, cat = acc ++ mid ∧ mid ≠ [] ∧ (∀ c ∈ mid, c ≠ '\n') ∧
        cs = mid ++ (g.w1 ++ g.n1 ++ g.w2 ++ g.n2 ++ g.w3 ++ g.n3 ++ g.rest) ∧
        TailProps g := by
  intro cs
  induction cs with
  | nil => intro acc cat g h; cases h
  | cons c t ih =>
    intro acc cat g h
    unfold scanCat at h
    by_cases hc : (c == '\n') = true
    · rw [if_pos hc] at h; cases h
    · rw [if_neg hc] at h
      have hcne : c ≠ '\n' := by
        intro he; subst he; exact hc rfl
      cases hm : tailMatch num t with
      | some g2 =>
        rw [hm] at h
        rw [Option.some.injEq, Prod.mk.injEq] at h
        obtain ⟨hcat, hgg⟩ := h
        subst hcat; subst hgg
        obtain ⟨htm1, htm2⟩ := tailMatch_sound hnum hm
        refine ⟨[c], rfl, by simp, by simp [hcne], by simpa using htm1, htm2⟩
      | none =>
        rw [hm] at h
        obtain ⟨mid, hcat, hmidne, hmidnl, hrest, hpr⟩ := ih h
        refine ⟨c :: mid, by simpa using hcat, by simp, ?_,
          by simpa using hrest, hpr⟩
        intro x hx
        rcases List.mem_cons.mp hx with rfl | hx
        · exact hcne
        · exact hmidnl x hx

theorem matchPattern_sound {num : List Char → Option (List Char × List Char)}
    (hnum : NumSound num) {cs cat : List Char} {g : TailG}
    (h : matchPattern num cs = some (cat, g)) :
    cs = cat ++ g.w1 ++ g.n1 ++ g.w2 ++ g.n2 ++ g.w3 ++ g.n3 ++ g.rest ∧
    cat ≠ [] ∧ (∀ c ∈ cat, c ≠ '\n') ∧ TailProps g := by
  obtain ⟨mid, hcat, hne, hnl, hcs, hpr⟩ := scanCat_sound hnum h
  rw [List.nil_append] at hcat
  subst hcat
  refine ⟨by rw [hcs]; simp [List.append_assoc], hne, hnl, hpr⟩

/-- C3 (amended): `_parse_budget_line` tries its three patterns in source
order — comma-grouped numbers first, then plain digit/decimal numbers,
then loose digit/comma/dot runs — and stops at the first that matches;
but a pattern has to match only a prefix of the line (`re.match` does not
anchor the end of the pattern, so trailing text — including a fourth
number — is ignored), and every successful match captures exactly three
numeric fields, assigned positionally to `this_month` (this period),
`fiscal_year_to_date` and `budget_estimate`; the record has no
`prior_period` field. -/
theorem parse_budget_line_amended (t : String) (r : BudgetItem)
    (h : parse_budget_line t = some r) :
    ∃ cat g,
      (matchPattern num1 t.toList = some (cat, g) ∨
        (matchPattern num1 t.toList = none ∧
          matchPattern num2 t.toList = some (cat, g)) ∨
        (matchPattern num1 t.toList = none ∧
          matchPattern num2 t.toList = none ∧
          matchPattern num3 t.toList = some (cat, g))) ∧
      t.toList = cat ++ g.w1 ++ g.n1 ++ g.w2 ++ g.n2 ++ g.w3 ++ g.n3 ++ g.rest ∧
      cat ≠ [] ∧ (∀ c ∈ cat, c ≠ '\n') ∧ TailProps g ∧
      r = ⟨String.mk (pyStrip cat), parse_amount (String.mk g.n1),
        parse_amount (String.mk g.n2), parse_amount (String.mk g.n3)⟩ := by
  unfold parse_budget_line at h
  cases hm1 : matchPattern num1 t.toList with
  | some p1 =>
    obtain ⟨cat, g⟩ := p1
    simp only [hm1, Option.some_orElse] at h
    rw [Option.some.injEq] at h
    obtain ⟨hsp, hcne, hcnl, hpr⟩ := matchPattern_sound num1_sound hm1
    exact ⟨cat, g, Or.inl rfl, hsp, hcne, hcnl, hpr, h.symm⟩
  | none =>
    cases hm2 : matchPattern num2 t.toList with
    | some p2 =>
      obtain ⟨cat, g⟩ := p2
      simp only [hm1, hm2, Option.none_orElse, Option.some_orElse] at h
      rw [Option.some.injEq] at h
      obtain ⟨hsp, hcne, hcnl, hpr⟩ := matchPattern_sound num2_sound hm2
      exact ⟨cat, g, Or.inr (Or.inl ⟨rfl, rfl⟩), hsp, hcne, hcnl, hpr, h.symm⟩
    | none =>
      cases hm3 : matchPattern num3 t.toList with
      | some p3 =>
        obtain ⟨cat, g⟩ := p3
        simp only [hm1, hm2, hm3, Option.none_orElse, Option.some_orElse] at h
        rw [Option.some.injEq] at h
        obtain ⟨hsp, hcne, hcnl, hpr⟩ := matchPattern_sound num3_sound hm3
        exact ⟨cat, g, Or.inr (Or.inr ⟨rfl, rfl, rfl⟩), hsp, hcne, hcnl, hpr,
          h.symm⟩
      | none =>
        exfalso
        rw [hm1, hm2, hm3] at h
        simp at h

theorem parse_amount_digit_one : parse_amount (String.mk ['1']) = .finite 1 := by
  rw [parse_amount_eval _ (.num false ['1'] [] 0) (by decide),
    FloatRep.val_num_eval _ _ _ _ 1 0 0 (by decide) (by decide) (by decide)]
  norm_num [pow10]

theorem parse_amount_digit_two : parse_amount (String.mk ['2']) = .finite 2 := by
  rw [parse_amount_eval _ (.num false ['2'] [] 0) (by decide),
    FloatRep.val_num_eval _ _ _ _ 2 0 0 (by decide) (by decide) (by decide)]
  norm_num [pow10]

theorem parse_amount_digit_three : parse_amount (String.mk ['3']) = .finite 3 := by
  rw [parse_amount_eval _ (.num false ['3'] [] 0) (by decide),
    FloatRep.val_num_eval _ _ _ _ 3 0 0 (by decide) (by decide) (by decide)]
  norm_num [pow10]

/-- C3, counterexample: on "A 1 2 3 4" — a line with four numeric fields
and hence, per the claim, a full-line match assigning prior-period 3 and
budget-estimate 4 — the code matches only the prefix "A 1 2 3", assigns
the third number to `budget_estimate`, ignores the fourth number entirely
and produces no prior-period value. -/
theorem parse_budget_line_counterexample :
    parse_budget_line "A 1 2 3 4" =
      some ⟨"A", .finite 1, .finite 2, .finite 3⟩ ∧
    (parse_budget_line "A 1 2 3 4").map BudgetItem.budget_estimate ≠
      some (.finite 4) := by
  have hm : matchPattern num1 "A 1 2 3 4".toList =
      some (['A'], ⟨[' '], ['1'], [' '], ['2'], [' '], ['3'], [' ', '4']⟩) := by
    decide
  have hmain : parse_budget_line "A 1 2 3 4" =
      some ⟨"A", .finite 1, .finite 2, .finite 3⟩ := by
    unfold parse_budget_line
    simp only [hm, Option.some_orElse]
    rw [show String.mk (pyStrip ['A']) = "A" from by decide,
      parse_amount_digit_one, parse_amount_digit_two, parse_amount_digit_three]
  refine ⟨hmain, ?_⟩
  rw [hmain]
  simp only [Option.map_some', ne_eq, Option.some.injEq]
  intro hcon
  have : (3 : ℚ) = 4 := by
    have := hcon
    rwa [PyFloat.finite.injEq] at this
  norm_num at this

/-- C3, witness: the amended decomposition applied to the concrete line
"Tax 1 2 3". -/
theorem parse_budget_line_amended_witness :
    ∃ cat g,
      (matchPattern num1 "Tax 1 2 3".toList = some (cat, g) ∨
        (matchPattern num1 "Tax 1 2 3".toList = none ∧
          matchPattern num2 "Tax 1 2 3".toList = some (cat, g)) ∨
        (matchPattern num1 "Tax 1 2 3".toList = none ∧
          matchPattern num2 "Tax 1 2 3".toList = none ∧
          matchPattern num3 "Tax 1 2 3".toList = some (cat, g))) ∧
      ("Tax 1 2 3".toList : List Char) =
        cat ++ g.w1 ++ g.n1 ++ g.w2 ++ g.n2 ++ g.w3 ++ g.n3 ++ g.rest ∧
      cat ≠ [] ∧ (∀ c ∈ cat, c ≠ '\n') ∧ TailProps g ∧
      (⟨"Tax", .finite 1, .finite 2, .finite 3⟩ : BudgetItem) =
        ⟨String.mk (pyStrip cat), parse_amount (String.mk g.n1),
          parse_amount (String.mk g.n2), parse_amount (String.mk g.n3)⟩ :=
  parse_budget_line_amended "Tax 1 2 3" ⟨"Tax", .finite 1, .finite 2, .finite 3⟩
    (by
      have hm : matchPattern num1 "Tax 1 2 3".toList =
          some ("Tax".toList, ⟨[' '], ['1'], [' '], ['2'], [' '], ['3'], []⟩) := by
        decide
      unfold parse_budget_line
      simp only [hm, Option.some_orElse]
      rw [show String.mk (pyStrip "Tax".toList) = "Tax" from by decide,
        parse_amount_digit_one, parse_amount_digit_two, parse_amount_digit_three])

/-- C1, counterexample: on the 4-line synthetic table both result lists
are empty — in particular `receipts` is not a one-element list with
`this_month = 198779` — because the two data rows contain the marker
substrings "Income Tax" and "Health" and are consumed as section markers
instead of being parsed. -/
theorem process_budget_table_demo_counterexample :
    process_budget_table_data demoLines = ([], []) := by
  decide

/-- C1 (amended): on the 4-line synthetic input the pipeline returns
`receipts = []` and `outlays = []`: the row "Individual Income Taxes ..."
contains the receipts marker substring "Income Tax" and the row "Health
and Human Services ..." contains the outlays marker substring "Health",
so each is treated as a section marker (from any prior state) and skipped,
and no record is ever appended. -/
theorem process_budget_table_demo_amended :
    process_budget_table_data demoLines = ([], []) ∧
    (∀ st : TableAcc,
      processLine st "Individual Income Taxes 198,779 926,432 850,000 2,254,000" =
        { st with current := some .receipts }) ∧
    (∀ st : TableAcc,
      processLine st "Health and Human Services 146,782 682,511 650,000 1,650,000" =
        { st with current := some .outlays }) := by
  refine ⟨by decide, ?_, ?_⟩
  · intro st
    unfold processLine
    rw [if_neg (by decide), if_pos (by decide)]
  · intro st
    unfold processLine
    rw [if_neg (by decide), if_neg (by decide), if_pos (by decide)]

/-- C9: when processing recovers no receipts and no outlays, the pipeline
returns the fixed, non-empty mock fallback value (a defined result — the
function is total, so nothing is raised — and the condition is merely
logged in the source). -/
theorem extract_budget_table_fallback (texts : List String)
    (h : process_budget_table_data texts = ([], [])) :
    extract_budget_table_post texts = create_mock_budget_data ∧
    create_mock_budget_data.1 ≠ [] ∧ create_mock_budget_data.2 ≠ [] := by
  refine ⟨?_, by decide, by decide⟩
  unfold extract_budget_table_post
  rw [if_pos ⟨by rw [h], by rw [h]⟩]

/-- C9, witness: an empty OCR stream recovers nothing, so the mock
fallback is returned. -/
theorem extract_budget_table_fallback_witness :
    extract_budget_table_post [] = create_mock_budget_data ∧
    create_mock_budget_data.1 ≠ [] ∧ create_mock_budget_data.2 ≠ [] :=
  extract_budget_table_fallback [] (by decide)

example : parse_filename "mts0224.pdf" = ("February", "2024") := by decide
example : extract_metadata_month_year "" "mts0224.pdf" =
    (some "February", some 2024) := by decide
example : searchMonthYear "Report for January 2023".toList =
    some ("January", 2023) := by decide

theorem twenty_append_ne_unknown (s : String) : ("20" ++ s) ≠ "Unknown" := by
  intro he
  have hd := congrArg String.data he
  rw [String.data_append] at hd
  rw [show ("20" : String).data = ['2', '0'] from rfl,
    show ("Unknown" : String).data = "Unknown".toList from rfl] at hd
  simp at hd

/-- C4, counterexample: for the filename `mts1324.pdf` (month index 13,
out of range) both cited resolvers leave the month unresolved while the
year is resolved to 2024 — the "both or neither" invariant fails. -/
theorem metadata_partial_counterexample :
    parse_filename "mts1324.pdf" = ("Unknown", "2024") ∧
    extract_metadata_month_year "" "mts1324.pdf" = (none, some 2024) ∧
    ("2024" : String) ≠ "Unknown" := by
  decide

/-- C4 (amended): the invariant holds in one direction only — whenever the
month is resolved the year is resolved too (in `parse_filename` and in
`_extract_metadata`); but the converse fails: an out-of-range month index
with a parseable two-digit year yields an "Unknown"/`None` month together
with a resolved year, so month and year are not always both resolved or
both unresolved. -/
theorem metadata_month_year_amended :
    (∀ f : String, (parse_filename f).1 ≠ "Unknown" →
      (parse_filename f).2 ≠ "Unknown") ∧
    (∀ t f : String, (extract_metadata_month_year t f).1 ≠ none →
      (extract_metadata_month_year t f).2 ≠ none) := by
  constructor
  · intro f h
    unfold parse_filename at h ⊢
    cases h1 : pyIntOfList (pySlice f.toList 3 5) with
    | none => simp only [h1] at h; exact absurd rfl h
    | some mn =>
      cases h2 : pyIntOfList (pySlice f.toList 5 7) with
      | none => simp only [h1, h2] at h; exact absurd rfl h
      | some yn =>
        simp only [h1, h2]
        exact twenty_append_ne_unknown (pyIntStr yn)
  · intro t f h
    unfold extract_metadata_month_year at h ⊢
    cases hs : searchMonthYear t.toList with
    | some p => obtain ⟨m, y⟩ := p; simp [hs]
    | none =>
      simp only [hs] at h ⊢
      split at h
      · rename_i hc
        rw [if_pos hc]
        cases h1 : pyIntOfList (pySlice f.toList 3 5) with
        | none => simp only [h1] at h; exact absurd rfl h
        | some mn =>
          cases h2 : pyIntOfList (pySlice f.toList 5 7) with
          | none => simp only [h1, h2] at h; exact absurd rfl h
          | some yn => simp [h1, h2]
      · rename_i hc
        rw [if_neg hc]
        exact absurd rfl h

/-- C4, witness: the month-resolved-implies-year-resolved direction at the
well-formed filename `mts0224.pdf`. -/
theorem metadata_month_year_amended_witness :
    (parse_filename "mts0224.pdf").2 ≠ "Unknown" :=
  metadata_month_year_amended.1 "mts0224.pdf" (by decide)

/-- C5: metadata resolution applies the fixed fallback order — (1) an
in-text `<MonthName> <4-digit year>` date always wins; (2) otherwise the
filename is decoded (month index validated to 1..12, two-digit year made
21st-century), so `mts0224.pdf` with no in-text date resolves to February
2024 in both the extractor and the script decoder; (3) when the in-text
search and the filename decode both fail, the resolvers return their
unresolved sentinel for both fields. -/
theorem metadata_resolution_order :
    (∀ t f m : String, ∀ y : Nat,
      searchMonthYear t.toList = some (m, y) →
      extract_metadata_month_year t f = (some m, some (y : Int))) ∧
    (searchMonthYear ("" : String).toList = none ∧
      extract_metadata_month_year "" "mts0224.pdf" =
        (some "February", some 2024)) ∧
    extract_metadata_from_filename "mts0224.pdf" =
      ⟨"February", "2024", "February 2024"⟩ ∧
    (∀ t f : String, searchMonthYear t.toList = none →
      pyIntOfList (pySlice f.toList 3 5) = none →
      extract_metadata_month_year t f = (none, none) ∧
      extract_metadata_from_filename f =
        ⟨"Unknown", "Unknown", "Unknown"⟩) := by
  refine ⟨?_, by decide, by decide, ?_⟩
  · intro t f m y h
    unfold extract_metadata_month_year
    simp only [h]
  · intro t f h1 h2
    constructor
    · unfold extract_metadata_month_year
      simp only [h1]
      split
      · simp only [h2]
      · rfl
    · unfold extract_metadata_from_filename
      simp only [h2]

/-- C5, witness: an in-text date beats the filename decoding. -/
theorem metadata_resolution_order_witness :
    extract_metadata_month_year "Report for January 2023" "mts0224.pdf" =
      (some "January", some 2023) :=
  metadata_resolution_order.1 "Report for January 2023" "mts0224.pdf"
    "January" 2023 (by decide)

/-- C6: the ratio is `round(this_month / budget_estimate * 100, 2)` when
the budget estimate is positive and `0` when it is `≤ 0`; the division is
guarded by the positivity test, and the function is total, so no
divide-by-zero fault can occur. -/
theorem ratio_percentage_spec (tm be : ℚ) :
    (0 < be → ratio_percentage tm be = pyRound2 (tm / be * 100)) ∧
    (be ≤ 0 → ratio_percentage tm be = 0) := by
  constructor
  · intro h
    unfold ratio_percentage
    rw [if_pos h]
  · intro h
    unfold ratio_percentage
    rw [if_neg (not_lt.mpr h)]
    unfold pyRound2 pyRoundInt
    norm_num

/-- C6, witness: a positive estimate uses the rounded ratio, a zero
estimate returns `0`. -/
theorem ratio_percentage_spec_witness :
    ratio_percentage 1 4 = pyRound2 (1 / 4 * 100) ∧ ratio_percentage 1 0 = 0 :=
  ⟨(ratio_percentage_spec 1 4).1 (by norm_num), (ratio_percentage_spec 1 0).2 le_rfl⟩

/-- C7, counterexample: in main.py's `compare_statements` with no
comparison statement, the `previous` field is absent but the
`change_percent` field is the number `0` (its type is not even optional),
so a missing prior period is not distinguishable from a computed 0%
change there. -/
theorem compare_statements_zero_change_counterexample :
    (mockSummaryReceipts false).previous = none ∧
    (mockSummaryReceipts false).change_percent = 0 := by
  constructor <;> rfl

/-- C7 (amended): the percentage-change helper returns
`(current - previous) / previous * 100` and is absent (never a
divide-by-zero fault) when `previous` is absent or zero, and api.py's
comparison entries keep both `previous` and `change` absent when the
comparison input is absent; but in main.py's `compare_statements` the
`change_percent` fields are `0`, not absent, when the comparison is
absent — only the `previous` fields are absent there. -/
theorem percentage_change_amended :
    (∀ c : ℚ, calculate_percentage_change c none = none) ∧
    (∀ c : ℚ, calculate_percentage_change c (some 0) = none) ∧
    (∀ c p : ℚ, p ≠ 0 →
      calculate_percentage_change c (some p) = some ((c - p) / p * 100)) ∧
    (∀ pr : ℚ, apiSummaryEntry pr none = (pr, none, none)) ∧
    ((mockSummaryReceipts false).previous = none ∧
      (mockSummaryReceipts false).change_percent = 0) := by
  refine ⟨fun c => rfl, fun c => by simp [calculate_percentage_change],
    ?_, fun pr => rfl, rfl, rfl⟩
  intro c p hp
  simp [calculate_percentage_change, hp]

/-- C7, witness: a present, non-zero previous value yields the formula. -/
theorem percentage_change_amended_witness :
    calculate_percentage_change 6 (some 4) = some ((6 - 4) / 4 * 100) :=
  percentage_change_amended.2.2.1 6 4 (by norm_num)

theorem ratioGE_trans (a b c : DeptRank) (h1 : ratioGE a b) (h2 : ratioGE b c) :
    ratioGE a c := by
  simp only [ratioGE, decide_eq_true_eq] at *
  exact le_trans h2 h1

theorem ratioGE_total (a b : DeptRank) : ratioGE a b || ratioGE b a := by
  simp only [ratioGE]
  rcases le_total a.ratio_percentage b.ratio_percentage with h | h <;> simp [h]

/-- C8: ranking sorts by ratio descending; the sorted list is a
permutation of the input, ordered by `ratio_percentage` descending, and
stable (a tied pair keeps its original relative order); with 5 or more
departments `top_departments` is the first 5 and `bottom_departments` the
last 5 of the sorted sequence; with fewer than 5, `top_departments` is the
whole sorted sequence and `bottom_departments` is empty — no error in
either case, the functions are total. -/
theorem compare_departments_ranking (ds : List DeptRank) :
    (sortDepartments ds).Perm ds ∧
    (sortDepartments ds).Pairwise
      (fun a b => b.ratio_percentage ≤ a.ratio_percentage) ∧
    (∀ a b : DeptRank, a.ratio_percentage = b.ratio_percentage →
      List.Sublist [a, b] ds → List.Sublist [a, b] (sortDepartments ds)) ∧
    (5 ≤ ds.length →
      top_departments ds = (sortDepartments ds).take 5 ∧
      bottom_departments ds = (sortDepartments ds).drop (ds.length - 5)) ∧
    (ds.length < 5 →
      top_departments ds = sortDepartments ds ∧ bottom_departments ds = []) := by
  have hlen : (sortDepartments ds).length = ds.length :=
    List.length_mergeSort ds
  refine ⟨List.mergeSort_perm ds ratioGE, ?_, ?_, ?_, ?_⟩
  · have hs := @List.sorted_mergeSort DeptRank ratioGE
      ratioGE_trans ratioGE_total ds
    exact hs.imp (fun h => by
      simpa [ratioGE, decide_eq_true_eq] using h)
  · intro a b hab hsub
    exact List.pair_sublist_mergeSort ratioGE_trans ratioGE_total
      (by simp [ratioGE, hab]) hsub
  · intro h5
    rw [top_departments, bottom_departments, if_pos (by omega), if_pos (by omega),
      hlen]
    exact ⟨rfl, rfl⟩
  · intro h5
    rw [top_departments, bottom_departments, if_neg (by omega), if_neg (by omega)]
    exact ⟨rfl, rfl⟩

/-- C8, witness: with only three departments the top slice is the whole
sorted list and the bottom slice is empty. -/
theorem compare_departments_ranking_witness :
    top_departments [⟨"a", 1⟩, ⟨"b", 3⟩, ⟨"c", 2⟩] =
      sortDepartments [⟨"a", 1⟩, ⟨"b", 3⟩, ⟨"c", 2⟩] ∧
    bottom_departments [⟨"a", 1⟩, ⟨"b", 3⟩, ⟨"c", 2⟩] = [] :=
  (compare_departments_ranking [⟨"a", 1⟩, ⟨"b", 3⟩, ⟨"c", 2⟩]).2.2.2.2
    (by decide)

theorem api_script_groups (dept : String) (g1 g2 g3 g4 : List Char) :
    api_parse_groups dept g1 g2 g3 g4 =
      (script_parse_groups dept g1 g2 g3 g4).map (Option.map scaleDeptData) := by
  unfold api_parse_groups script_parse_groups
  cases intOfGroup g1 with
  | error e => rfl
  | ok a =>
    cases intOfGroup g2 with
    | error e => rfl
    | ok b =>
      cases intOfGroup g3 with
      | error e => rfl
      | ok c =>
        cases intOfGroup g4 with
        | error e => rfl
        | ok d => rfl

/-- C10, counterexample: on a text whose matched numeric groups consist
only of commas, both extractors raise `ValueError` from `int("")` — so it
is not true that on every input they either both return a record or both
return the no-match result. -/
theorem extract_budget_data_error_counterexample :
    script_extract_budget_data "Department of Defense ,, ,, ,, ,,"
      "Department of Defense" = .error "invalid literal for int" ∧
    api_extract_budget_data "Department of Defense ,, ,, ,, ,,"
      "Department of Defense" = .error "invalid literal for int" := by
  constructor <;> rfl

/-- C10 (amended): on every page text and department name the API-path
extractor behaves exactly like the script-path extractor with every
numeric field of a returned record multiplied by 1,000,000 (a scaling the
spec never mentions): both return a record together, both return the
no-match/no-text result together, and both raise the same `ValueError`
together (which happens when a matched numeric group contains only
commas). -/
theorem extract_budget_data_refinement (text dept : String) :
    api_extract_budget_data text dept =
      (script_extract_budget_data text dept).map (Option.map scaleDeptData) := by
  unfold api_extract_budget_data script_extract_budget_data
  by_cases ht : text = ""
  · rw [if_pos ht, if_pos ht]
    rfl
  · rw [if_neg ht, if_neg ht]
    cases searchDeptPattern dept.toList text.toList with
    | none => rfl
    | some g =>
      obtain ⟨g1, g2, g3, g4⟩ := g
      exact api_script_groups dept g1 g2 g3 g4
